import Mathlib

/-!
Shallow embedding of `src/lib/bladerf/bladerf_source_c.cc` (gr-osmosdr bladeRF
source block).

The streaming work cycle `bladerf_source_c::work` is modelled as a pure step
function on the adapter state (`_consecutive_failures`, `_conv_buf_size`).
The outcome of the external driver call `bladerf_sync_rx` and the contents it
leaves in the scratch buffer `_conv_buf` are inputs of each step (the driver
is an external collaborator).  The fixed-point samples are 16-bit integers and
the scale factor is the power of two 2048, so the float conversion performed
by `volk_16i_s32f_convert_32f` is exact in binary32 arithmetic; it is
therefore modelled over `ℚ`.  The fatal realloc-failure path (an exception
that aborts the cycle) is outside the modelled behaviour.
-/

/-- Modelled from the spec: `MAX_CONSECUTIVE_FAILURES` is declared in
`bladerf_common.h`, which is not part of this excerpt; the spec fixes the
consecutive-failure threshold at 3. -/
def MAX_CONSECUTIVE_FAILURES : Nat := 3

/-- The fixed scale factor `scaling = 2048.0f` from `bladerf_source_c::work`. -/
def scaling : ℚ := 2048

/-- One raw 16-bit sample converted to floating point by
`volk_16i_s32f_convert_32f`, which divides each input by the scalar. -/
def int16ToFloat (v : Int) : ℚ := (v : ℚ) / scaling

/-- The destination buffer produced by
`volk_16i_s32f_convert_32f((float*)out, _conv_buf, scaling, 2*noutput_items)`:
all `2*n` interleaved 16-bit integers of the scratch buffer are divided by the
scale factor, giving `n` complex (I, Q) float samples. -/
def convertOut (n : Nat) (buf : Nat → Int) : List (ℚ × ℚ) :=
  (List.range n).map (fun i => (int16ToFloat (buf (2 * i)), int16ToFloat (buf (2 * i + 1))))

/-- The mutable adapter state touched by `bladerf_source_c::work`:
`_consecutive_failures` and `_conv_buf_size` (capacity of `_conv_buf`,
counted in samples; the C buffer holds `_conv_buf_size * 2` 16-bit ints). -/
structure AdapterState where
  consecutive_failures : Nat
  conv_buf_size : Int

/-- One invocation of the work cycle: the requested output count
`noutput_items`, the outcome of the `bladerf_sync_rx` call (`rx_ok` means the
driver returned 0), and the contents of the scratch buffer `_conv_buf` at
conversion time (on failure this is whatever stale or zeroed data the buffer
holds — the code converts it regardless). -/
structure WorkInput where
  noutput_items : Nat
  rx_ok : Bool
  buf : Nat → Int

/-- The value a work invocation hands back to the scheduler: either the
`WORK_DONE` sentinel or a sample count together with the converted output. -/
inductive WorkResult where
  | done : WorkResult
  | samples : Nat → List (ℚ × ℚ) → WorkResult

/-- The realloc block at the top of `work`: when `noutput_items` exceeds
`_conv_buf_size`, the scratch buffer is reallocated and `_conv_buf_size`
becomes `noutput_items`; otherwise the capacity is unchanged. -/
def grownSize (s : AdapterState) (n : Nat) : Int :=
  if (n : Int) > s.conv_buf_size then (n : Int) else s.conv_buf_size

/-- The body of `bladerf_source_c::work`: grow `_conv_buf` when
`noutput_items > _conv_buf_size`; call `bladerf_sync_rx`; on failure increment
`_consecutive_failures` and return `WORK_DONE` once the threshold is reached;
on success reset the counter; otherwise convert the scratch buffer and return
`noutput_items`. -/
def workStep (s : AdapterState) (inp : WorkInput) : AdapterState × WorkResult :=
  let size' : Int := grownSize s inp.noutput_items
  if inp.rx_ok then
    (⟨0, size'⟩, WorkResult.samples inp.noutput_items (convertOut inp.noutput_items inp.buf))
  else
    let cf' := s.consecutive_failures + 1
    if MAX_CONSECUTIVE_FAILURES ≤ cf' then
      (⟨cf', size'⟩, WorkResult.done)
    else
      (⟨cf', size'⟩, WorkResult.samples inp.noutput_items (convertOut inp.noutput_items inp.buf))

/-- Post-state of one work invocation. -/
def stepState (s : AdapterState) (inp : WorkInput) : AdapterState := (workStep s inp).1

/-- Return value of one work invocation. -/
def stepResult (s : AdapterState) (inp : WorkInput) : WorkResult := (workStep s inp).2

/-- Modelled from the spec: the initial adapter state.  `_consecutive_failures`
and `_conv_buf_size` are initialised in the `bladerf_common` constructor, which
is not part of this excerpt; the counter starts at 0 (no failures yet) and the
scratch buffer starts empty. -/
def initState : AdapterState := ⟨0, 0⟩

/-- The sequence of values returned to the scheduler over a run of work
invocations.  Per the streaming framework contract (the scheduler treats the
`WORK_DONE` sentinel as end of stream and issues no further work call), the
trace stops once `done` is returned. -/
def runTrace (s : AdapterState) : List WorkInput → List WorkResult
  | [] => []
  | inp :: rest =>
    match workStep s inp with
    | (_, WorkResult.done) => [WorkResult.done]
    | (s', r) => r :: runTrace s' rest

/-- The adapter state after a run of work invocations; the run stops once the
`WORK_DONE` sentinel has been returned (framework contract, as in `runTrace`). -/
def runState (s : AdapterState) : List WorkInput → AdapterState
  | [] => s
  | inp :: rest =>
    match workStep s inp with
    | (s', WorkResult.done) => s'
    | (s', _) => runState s' rest

/-- The libbladeRF channel macro `BLADERF_CHANNEL_RX(ch) = (ch << 1) | 0x0`
(external header). -/
def BLADERF_CHANNEL_RX (ch : Nat) : Nat := 2 * ch

/-- `bladerf_source_c::get_freq_corr`: returns the constant 0 (the TODO stub
in the source); the channel argument is ignored and no state is read. -/
def get_freq_corr (chan : Nat) : ℚ := 0

/-- `bladerf_source_c::set_freq_corr`: writes no state and merely returns
`get_freq_corr(BLADERF_CHANNEL_RX(chan))`; the ppm argument is ignored. -/
def set_freq_corr (ppm : ℚ) (chan : Nat) : ℚ := get_freq_corr (BLADERF_CHANNEL_RX chan)

/-- `bladerf_source_c::get_antenna`: returns the constant string "RX0" for
every channel (the source comments note this is a lie on two-antenna boards). -/
def get_antenna (chan : Nat) : String := "RX0"

/-- `bladerf_source_c::set_antenna`: ignores the requested antenna and returns
`get_antenna(BLADERF_CHANNEL_RX(chan))`. -/
def set_antenna (antenna : String) (chan : Nat) : String :=
  get_antenna (BLADERF_CHANNEL_RX chan)

/-- `bladerf_source_c::get_antennas`: always lists "RX0", and appends "RX1"
exactly when `get_board_type` reports the `BLADERF_REV_2` board; the board
revision is passed as a boolean input. -/
def get_antennas (board_is_rev2 : Bool) (chan : Nat) : List String :=
  if board_is_rev2 then ["RX0", "RX1"] else ["RX0"]

/-- Modulus of the C `uint32_t` type. -/
def UINT32_MOD : Nat := 4294967296

/-- The C cast `(uint32_t)bandwidth` applied to a nonnegative double in
`bladerf_source_c::set_bandwidth`: truncation toward zero; values outside the
`uint32_t` range are undefined behaviour in C and are modelled as wraparound
(no claim relies on the out-of-range case). -/
def castUInt32 (x : ℚ) : Nat := Int.toNat ⌊x⌋ % UINT32_MOD

/-- The bandwidth value computed by `bladerf_source_c::set_bandwidth` before
the hardware call: an argument of 0 selects `get_sample_rate() * 0.75`
(0.75 is exactly representable, so `ℚ` models the double arithmetic). -/
def set_bandwidth_effective (bandwidth : ℚ) (current_sample_rate : ℚ) : ℚ :=
  if bandwidth = 0 then current_sample_rate * (3 / 4) else bandwidth

/-- The value actually passed to `bladerf_set_bandwidth`: the computed
bandwidth cast to `uint32_t` at the call site. -/
def set_bandwidth_applied (bandwidth : ℚ) (current_sample_rate : ℚ) : Nat :=
  castUInt32 (set_bandwidth_effective bandwidth current_sample_rate)

/-! ## Supporting lemmas about single work invocations and runs -/

theorem workStep_ok (s : AdapterState) (inp : WorkInput) (h : inp.rx_ok = true) :
    workStep s inp =
      (⟨0, grownSize s inp.noutput_items⟩,
       WorkResult.samples inp.noutput_items (convertOut inp.noutput_items inp.buf)) := by
  simp [workStep, h]

theorem workStep_fail_below (s : AdapterState) (inp : WorkInput) (h : inp.rx_ok = false)
    (hcf : s.consecutive_failures + 1 < MAX_CONSECUTIVE_FAILURES) :
    workStep s inp =
      (⟨s.consecutive_failures + 1, grownSize s inp.noutput_items⟩,
       WorkResult.samples inp.noutput_items (convertOut inp.noutput_items inp.buf)) := by
  simp [workStep, h, Nat.not_le.mpr hcf]

theorem workStep_fail_done (s : AdapterState) (inp : WorkInput) (h : inp.rx_ok = false)
    (hcf : MAX_CONSECUTIVE_FAILURES ≤ s.consecutive_failures + 1) :
    workStep s inp =
      (⟨s.consecutive_failures + 1, grownSize s inp.noutput_items⟩, WorkResult.done) := by
  simp [workStep, h, hcf]

theorem runTrace_nil (s : AdapterState) : runTrace s [] = [] := rfl

theorem runTrace_cons (s : AdapterState) (inp : WorkInput) (rest : List WorkInput) :
    runTrace s (inp :: rest) =
      match workStep s inp with
      | (_, WorkResult.done) => [WorkResult.done]
      | (s', r) => r :: runTrace s' rest := rfl

theorem runTrace_cons_samples (s s' : AdapterState) (inp : WorkInput) (rest : List WorkInput)
    (n : Nat) (out : List (ℚ × ℚ)) (h : workStep s inp = (s', WorkResult.samples n out)) :
    runTrace s (inp :: rest) = WorkResult.samples n out :: runTrace s' rest := by
  rw [runTrace_cons, h]

theorem runTrace_cons_done (s s' : AdapterState) (inp : WorkInput) (rest : List WorkInput)
    (h : workStep s inp = (s', WorkResult.done)) :
    runTrace s (inp :: rest) = [WorkResult.done] := by
  rw [runTrace_cons, h]

theorem runState_nil (s : AdapterState) : runState s [] = s := rfl

theorem runState_cons (s : AdapterState) (inp : WorkInput) (rest : List WorkInput) :
    runState s (inp :: rest) =
      match workStep s inp with
      | (s', WorkResult.done) => s'
      | (s', _) => runState s' rest := rfl

theorem runTrace_three_failures (s : AdapterState) (f1 f2 f3 : WorkInput)
    (h0 : s.consecutive_failures = 0)
    (h1 : f1.rx_ok = false) (h2 : f2.rx_ok = false) (h3 : f3.rx_ok = false) :
    runTrace s [f1, f2, f3] =
      [WorkResult.samples f1.noutput_items (convertOut f1.noutput_items f1.buf),
       WorkResult.samples f2.noutput_items (convertOut f2.noutput_items f2.buf),
       WorkResult.done] := by
  rw [runTrace_cons_samples _ _ _ _ _ _
    (workStep_fail_below s f1 h1 (by rw [h0]; decide))]
  rw [runTrace_cons_samples _ _ _ _ _ _
    (workStep_fail_below _ f2 h2 (by simp [h0, MAX_CONSECUTIVE_FAILURES]))]
  rw [runTrace_cons_done _ _ _ _
    (workStep_fail_done _ f3 h3 (by simp [h0, MAX_CONSECUTIVE_FAILURES]))]

/-- C1: after exactly 3 consecutive failed transfers the stream signals the
terminal `WORK_DONE` status instead of a sample count: starting from a state
with no accumulated failures, the first two failing invocations still return
their full sample counts, and the invocation carrying the third consecutive
failure returns `done`. -/
theorem work_signals_done_after_three_consecutive_failures
    (s : AdapterState) (f1 f2 f3 : WorkInput)
    (h0 : s.consecutive_failures = 0)
    (h1 : f1.rx_ok = false) (h2 : f2.rx_ok = false) (h3 : f3.rx_ok = false) :
    runTrace s [f1, f2, f3] =
      [WorkResult.samples f1.noutput_items (convertOut f1.noutput_items f1.buf),
       WorkResult.samples f2.noutput_items (convertOut f2.noutput_items f2.buf),
       WorkResult.done] :=
  runTrace_three_failures s f1 f2 f3 h0 h1 h2 h3

theorem work_signals_done_after_three_consecutive_failures_witness :
    runTrace initState
        [⟨2, false, fun _ => 0⟩, ⟨2, false, fun _ => 0⟩, ⟨2, false, fun _ => 0⟩] =
      [WorkResult.samples 2 (convertOut 2 (fun _ => 0)),
       WorkResult.samples 2 (convertOut 2 (fun _ => 0)),
       WorkResult.done] :=
  work_signals_done_after_three_consecutive_failures initState
    ⟨2, false, fun _ => 0⟩ ⟨2, false, fun _ => 0⟩ ⟨2, false, fun _ => 0⟩ rfl rfl rfl rfl

/-- C2: once the terminal `done` status has been signalled the stream is
permanently done: in the trace of returned values of any run, `done` is only
ever the last element, so no later invocation returns a (positive) sample
count — under the framework contract that the scheduler stops invoking work
after the `WORK_DONE` sentinel. -/
theorem done_is_terminal (s : AdapterState) (inps : List WorkInput)
    (pre post : List WorkResult)
    (h : runTrace s inps = pre ++ WorkResult.done :: post) :
    post = [] := by
  induction inps generalizing s pre with
  | nil => simp [runTrace_nil] at h
  | cons inp rest ih =>
    rw [runTrace_cons] at h
    rcases hw : workStep s inp with ⟨s', r⟩
    rw [hw] at h
    cases r with
    | done =>
      cases pre with
      | nil =>
        simpa using h
      | cons p ps =>
        simp only [List.cons_append, List.cons.injEq] at h
        exact absurd h.2.symm (List.cons_ne_nil _ _ ∘ (List.append_eq_nil.mp · |>.2))
    | samples n out =>
      cases pre with
      | nil => simp at h
      | cons p ps =>
        simp only [List.cons_append, List.cons.injEq] at h
        exact ih s' ps h.2

theorem done_is_terminal_witness : ([] : List WorkResult) = [] :=
  done_is_terminal initState
    [⟨2, false, fun _ => 0⟩, ⟨2, false, fun _ => 0⟩, ⟨2, false, fun _ => 0⟩]
    [WorkResult.samples 2 (convertOut 2 (fun _ => 0)),
     WorkResult.samples 2 (convertOut 2 (fun _ => 0))] []
    (runTrace_three_failures initState ⟨2, false, fun _ => 0⟩ ⟨2, false, fun _ => 0⟩
      ⟨2, false, fun _ => 0⟩ rfl rfl rfl rfl)

theorem runState_cons_done (s s' : AdapterState) (inp : WorkInput) (rest : List WorkInput)
    (h : workStep s inp = (s', WorkResult.done)) :
    runState s (inp :: rest) = s' := by
  rw [runState_cons, h]

theorem runState_cons_samples (s s' : AdapterState) (inp : WorkInput) (rest : List WorkInput)
    (n : Nat) (out : List (ℚ × ℚ)) (h : workStep s inp = (s', WorkResult.samples n out)) :
    runState s (inp :: rest) = runState s' rest := by
  rw [runState_cons, h]

theorem runState_cf_le (inps : List WorkInput) (s : AdapterState)
    (h : s.consecutive_failures < MAX_CONSECUTIVE_FAILURES) :
    (runState s inps).consecutive_failures ≤ MAX_CONSECUTIVE_FAILURES := by
  induction inps generalizing s with
  | nil => rw [runState_nil]; exact le_of_lt h
  | cons inp rest ih =>
    cases hok : inp.rx_ok with
    | true =>
      rw [runState_cons_samples _ _ _ _ _ _ (workStep_ok s inp hok)]
      exact ih _ (by simp [MAX_CONSECUTIVE_FAILURES])
    | false =>
      by_cases hth : MAX_CONSECUTIVE_FAILURES ≤ s.consecutive_failures + 1
      · rw [runState_cons_done _ _ _ _ (workStep_fail_done s inp hok hth)]
        exact h
      · rw [runState_cons_samples _ _ _ _ _ _
          (workStep_fail_below s inp hok (Nat.lt_of_not_le hth))]
        exact ih _ (Nat.lt_of_not_le hth)

/-- C3: the consecutive-failure counter is an invariant of the adapter state:
after any sequence of work invocations with arbitrary transfer outcomes
(starting from the initial state, the run stopping once `done` has been
signalled, as the scheduler does), the counter lies in [0, 3]. -/
theorem consecutive_failures_counter_bounded (inps : List WorkInput) :
    0 ≤ (runState initState inps).consecutive_failures ∧
    (runState initState inps).consecutive_failures ≤ MAX_CONSECUTIVE_FAILURES :=
  ⟨Nat.zero_le _, runState_cf_le inps initState (by decide)⟩

/-- C4: a work cycle whose transfer succeeds resets the consecutive-failure
counter to 0 from any prior state (even a nonzero one), and a failure
following that success does not terminate the stream until 3 further
consecutive failures occur: the first two failing cycles after the success
still return their sample counts and the third returns `done`. -/
theorem successful_transfer_resets_counter (s : AdapterState) (inp f1 f2 f3 : WorkInput)
    (hok : inp.rx_ok = true)
    (h1 : f1.rx_ok = false) (h2 : f2.rx_ok = false) (h3 : f3.rx_ok = false) :
    (stepState s inp).consecutive_failures = 0 ∧
    runTrace (stepState s inp) [f1, f2, f3] =
      [WorkResult.samples f1.noutput_items (convertOut f1.noutput_items f1.buf),
       WorkResult.samples f2.noutput_items (convertOut f2.noutput_items f2.buf),
       WorkResult.done] := by
  have hz : (stepState s inp).consecutive_failures = 0 := by
    rw [stepState, workStep_ok s inp hok]
  exact ⟨hz, runTrace_three_failures _ f1 f2 f3 hz h1 h2 h3⟩

theorem successful_transfer_resets_counter_witness :
    (stepState ⟨2, 0⟩ ⟨2, true, fun _ => 0⟩).consecutive_failures = 0 ∧
    runTrace (stepState ⟨2, 0⟩ ⟨2, true, fun _ => 0⟩)
        [⟨2, false, fun _ => 0⟩, ⟨2, false, fun _ => 0⟩, ⟨2, false, fun _ => 0⟩] =
      [WorkResult.samples 2 (convertOut 2 (fun _ => 0)),
       WorkResult.samples 2 (convertOut 2 (fun _ => 0)),
       WorkResult.done] :=
  successful_transfer_resets_counter ⟨2, 0⟩ ⟨2, true, fun _ => 0⟩
    ⟨2, false, fun _ => 0⟩ ⟨2, false, fun _ => 0⟩ ⟨2, false, fun _ => 0⟩ rfl rfl rfl rfl

/-- C5: a work cycle whose transfer fails without reaching the
consecutive-failure threshold still converts all `2n` interleaved 16-bit
integers currently in the scratch buffer into `n` complex float samples and
returns the full count `n` — no early return, zero, or short count. -/
theorem failed_transfer_below_threshold_still_converts (s : AdapterState) (inp : WorkInput)
    (hfail : inp.rx_ok = false)
    (hbelow : s.consecutive_failures + 1 < MAX_CONSECUTIVE_FAILURES) :
    stepResult s inp =
      WorkResult.samples inp.noutput_items (convertOut inp.noutput_items inp.buf) ∧
    (convertOut inp.noutput_items inp.buf).length = inp.noutput_items ∧
    (∀ i (hi : i < (convertOut inp.noutput_items inp.buf).length),
      (convertOut inp.noutput_items inp.buf)[i] =
        (int16ToFloat (inp.buf (2 * i)), int16ToFloat (inp.buf (2 * i + 1)))) := by
  refine ⟨?_, by simp [convertOut], ?_⟩
  · rw [stepResult, workStep_fail_below s inp hfail hbelow]
  · intro i hi
    simp [convertOut]

theorem failed_transfer_below_threshold_still_converts_witness :
    stepResult ⟨1, 0⟩ ⟨2, false, fun _ => 0⟩ =
      WorkResult.samples 2 (convertOut 2 (fun _ => 0)) ∧
    (convertOut 2 (fun _ => 0)).length = 2 ∧
    (∀ i (hi : i < (convertOut 2 (fun _ => 0)).length),
      (convertOut 2 (fun _ => 0))[i] = (int16ToFloat 0, int16ToFloat 0)) :=
  failed_transfer_below_threshold_still_converts ⟨1, 0⟩ ⟨2, false, fun _ => 0⟩ rfl (by decide)

/-- C6: the fixed-point-to-float conversion divides every raw 16-bit sample by
the fixed scale factor 2048, so 2048 converts to exactly 1, -2048 to exactly
-1, and 0 to exactly 0 (all values exact in binary32, hence the `ℚ` model). -/
theorem fixed_point_conversion_exact_values :
    scaling = 2048 ∧
    (∀ v : Int, int16ToFloat v = (v : ℚ) / 2048) ∧
    int16ToFloat 2048 = 1 ∧ int16ToFloat (-2048) = -1 ∧ int16ToFloat 0 = 0 := by
  refine ⟨rfl, fun v => rfl, ?_, ?_, ?_⟩ <;> norm_num [int16ToFloat, scaling]

theorem grownSize_ge (s : AdapterState) (n : Nat) :
    (n : Int) ≤ grownSize s n ∧ s.conv_buf_size ≤ grownSize s n := by
  unfold grownSize
  split <;> constructor <;> omega

theorem stepState_size (s : AdapterState) (inp : WorkInput) :
    (stepState s inp).conv_buf_size = grownSize s inp.noutput_items := by
  cases hok : inp.rx_ok
  · rw [stepState]
    simp only [workStep, hok, Bool.false_eq_true, if_false]
    split <;> rfl
  · rw [stepState, workStep_ok s inp hok]

theorem stepState_size_ge (s : AdapterState) (inp : WorkInput) :
    (inp.noutput_items : Int) ≤ (stepState s inp).conv_buf_size ∧
    s.conv_buf_size ≤ (stepState s inp).conv_buf_size := by
  rw [stepState_size]
  exact grownSize_ge s inp.noutput_items

theorem runState_size_mono (inps : List WorkInput) (s : AdapterState) :
    s.conv_buf_size ≤ (runState s inps).conv_buf_size := by
  induction inps generalizing s with
  | nil => rw [runState_nil]
  | cons inp rest ih =>
    rcases hw : workStep s inp with ⟨s', r⟩
    have hs : s.conv_buf_size ≤ s'.conv_buf_size := by
      have hle := (stepState_size_ge s inp).2
      rwa [stepState, hw] at hle
    cases r with
    | done =>
      rw [runState_cons_done _ _ _ _ hw]
      exact hs
    | samples n out =>
      rw [runState_cons_samples _ _ _ _ _ _ hw]
      exact le_trans hs (ih s')

/-- C7: the conversion-buffer capacity at the time each transfer is performed
(the capacity right after the realloc block, which is the post-state capacity)
is at least the requested sample count of that cycle, and the capacity never
decreases, neither across a single cycle nor along any run of cycles. -/
theorem conv_buf_capacity_sufficient_and_monotone (s : AdapterState) (inp : WorkInput)
    (inps : List WorkInput) :
    (inp.noutput_items : Int) ≤ (stepState s inp).conv_buf_size ∧
    s.conv_buf_size ≤ (stepState s inp).conv_buf_size ∧
    s.conv_buf_size ≤ (runState s inps).conv_buf_size :=
  ⟨(stepState_size_ge s inp).1, (stepState_size_ge s inp).2, runState_size_mono inps s⟩

/-- C8 (counterexample): the claim that `set_bandwidth(0)` applies a bandwidth
equal to `0.75 × current_sample_rate` for every current sample rate fails on
the code: at the sample rate 666667 the computed bandwidth is 500000.25, but
the value applied to the hardware is the `uint32_t` truncation 500000. -/
theorem set_bandwidth_zero_truncation_counterexample :
    set_bandwidth_effective 0 666667 = 666667 * (3 / 4) ∧
    (set_bandwidth_applied 0 666667 : ℚ) ≠ 666667 * (3 / 4) := by
  constructor
  · simp [set_bandwidth_effective]
  · have h1 : set_bandwidth_applied 0 666667 = 500000 := by
      rw [set_bandwidth_applied, castUInt32]
      norm_num [set_bandwidth_effective, UINT32_MOD]
      decide
    rw [h1]
    norm_num

/-- C8 (amended): `set_bandwidth(0)` computes a bandwidth of
`0.75 × current_sample_rate` and applies its truncation to `uint32_t` to the
hardware; the applied value equals `0.75 × rate` exactly whenever that product
is a nonnegative integer below 2^32. -/
theorem set_bandwidth_zero_selects_three_quarters_rate (rate : ℚ) (k : Nat)
    (hk : (k : ℚ) = rate * (3 / 4)) (hlt : k < UINT32_MOD) :
    set_bandwidth_effective 0 rate = rate * (3 / 4) ∧
    set_bandwidth_applied 0 rate = castUInt32 (rate * (3 / 4)) ∧
    (set_bandwidth_applied 0 rate : ℚ) = rate * (3 / 4) := by
  have heff : set_bandwidth_effective 0 rate = rate * (3 / 4) := by
    simp [set_bandwidth_effective]
  refine ⟨heff, by rw [set_bandwidth_applied, heff], ?_⟩
  rw [set_bandwidth_applied, heff, castUInt32, ← hk, Int.floor_natCast,
    Int.toNat_natCast, Nat.mod_eq_of_lt hlt]

theorem set_bandwidth_zero_selects_three_quarters_rate_witness :
    set_bandwidth_effective 0 1000000 = 1000000 * (3 / 4) ∧
    set_bandwidth_applied 0 1000000 = castUInt32 (1000000 * (3 / 4)) ∧
    (set_bandwidth_applied 0 1000000 : ℚ) = 1000000 * (3 / 4) :=
  set_bandwidth_zero_selects_three_quarters_rate 1000000 750000 (by norm_num)
    (by norm_num [UINT32_MOD])

/-- C9: `get_freq_corr` returns 0 for every channel, and `set_freq_corr`
applies no correction: it reads and writes no state and merely returns the
getter's value, 0, for every ppm argument and channel. -/
theorem freq_corr_unimplemented_stub (ppm : ℚ) (chan chan' : Nat) :
    get_freq_corr chan' = 0 ∧
    set_freq_corr ppm chan = get_freq_corr (BLADERF_CHANNEL_RX chan) ∧
    set_freq_corr ppm chan = 0 :=
  ⟨rfl, rfl, rfl⟩

/-- C10: `get_antenna` returns the constant "RX0" for every channel and board
revision — including the dual-antenna revision, on which `get_antennas` lists
both "RX0" and "RX1" — and therefore `set_antenna` also returns "RX0" for
every antenna argument. -/
theorem antenna_always_rx0 (antenna : String) (chan : Nat) :
    get_antenna chan = "RX0" ∧
    set_antenna antenna chan = "RX0" ∧
    get_antennas true chan = ["RX0", "RX1"] ∧
    get_antennas false chan = ["RX0"] :=
  ⟨rfl, rfl, rfl, rfl⟩
